import Mathlib

/-!
Shallow embedding of the bounded-concurrency job orchestrator in
`src/output/split_cracking_level_2_link_for_crawling_multi.py`, together with
proofs that settle the specification claims about it.

Conventions of the embedding:
* Python lists become `List`, Python's `None` becomes `Option.none`.
* Machine integers are `Nat`/`Int`; HTTP status codes are `Nat` at the wire
  and `Int` in the returned triple (the exception path returns `-1`).
* Durations are measured in whole seconds; the model charges `POLL_INTERVAL`
  seconds per completed sleep of the poll loop and zero for everything else.
* External effects (HTTP responses, poll observations, unexpected faults)
  are passed in as explicit arguments, so every function is total: totality
  of the Lean function models the source's guarantee that the corresponding
  Python function never propagates an exception.
-/

namespace TorProxy

/-! ### Configuration constants (lines 23-38 of the source) -/

def BATCH_SIZE : Nat := 50

def MAX_START_RETRY : Nat := 3

def POLL_INTERVAL : Nat := 5

def MAX_WAIT_SECONDS : Nat := 60 * 60

def MAX_CONCURRENCY : Nat := 4

/-- The terminal-state vocabulary (lines 43-45). -/
def TERMINAL_STATES : List String :=
  ["TERMINATED", "FINISHED", "STOPPED", "KILLED", "FAILED", "COMPLETED"]

/-! ### Batcher: `load_seeds` (lines 54-66) and `chunked` (lines 68-69) -/

/-- Python's `str.strip()`: drop leading and trailing whitespace.  (Python
strips the full Unicode whitespace class; the inputs here are URLs read from
a text file, where ASCII whitespace is the only kind that occurs.) -/
def pyStrip (s : String) : String :=
  ⟨((s.data.dropWhile Char.isWhitespace).reverse.dropWhile Char.isWhitespace).reverse⟩

/-- `load_seeds` body (lines 59-64): strip each line, skip lines that are
empty after stripping, and append a line only when it has not been seen
before.  The `seen` set of the Python code always holds exactly the elements
of the accumulated list, so membership in the accumulator models it. -/
def load_seeds (lines : List String) : List String :=
  lines.foldl
    (fun seeds l =>
      let s := pyStrip l
      if s ≠ "" ∧ s ∉ seeds then seeds ++ [s] else seeds)
    []

/-- Spec-side definition, written from the spec's words for the refinement
comparison: "Deduplication of WorkItems (by exact string equality) happens
before batching; first occurrence wins, order of first occurrence is
preserved."  It deduplicates an already-prepared list of items. -/
def dedupFirst (items : List String) : List String :=
  items.foldl (fun acc s => if s ∈ acc then acc else acc ++ [s]) []

/-- Fuel-driven core of `chunked`; the fuel bounds the number of slices and
`lst.length` fuel always suffices when `0 < n`. -/
def chunkedAux (n : Nat) : Nat → List α → List (List α)
  | 0, _ => []
  | _, [] => []
  | fuel + 1, lst => lst.take n :: chunkedAux n fuel (lst.drop n)

/-- `chunked` (lines 68-69): `[lst[i:i+n] for i in range(0, len(lst), n)]`.
Python raises `ValueError` on `n = 0`; every claim assumes a positive batch
size, and the model returns `[]` in that unreachable case. -/
def chunked (lst : List α) (n : Nat) : List (List α) :=
  if n = 0 then [] else chunkedAux n lst.length lst

/-- The sizes of the slices `chunked` produces, as a function of the input
length alone. -/
def chunkSizes (n : Nat) : Nat → Nat → List Nat
  | 0, _ => []
  | _, 0 => []
  | fuel + 1, len + 1 => min n (len + 1) :: chunkSizes n fuel (len + 1 - n)

end TorProxy

namespace TorProxy

/-! #### Lemmas about the Batcher -/

theorem chunkedAux_nil (n f : Nat) : chunkedAux n f ([] : List α) = [] := by
  cases f <;> simp [chunkedAux]

theorem chunkedAux_fuel_irrel (n : Nat) (hn : 0 < n) :
    ∀ (f₁ f₂ : Nat) (lst : List α), lst.length ≤ f₁ → lst.length ≤ f₂ →
      chunkedAux n f₁ lst = chunkedAux n f₂ lst := by
  intro f₁
  induction f₁ using Nat.strong_induction_on with
  | _ f₁ ih =>
    intro f₂ lst h₁ h₂
    match f₁, f₂, lst with
    | _, _, [] => rw [chunkedAux_nil, chunkedAux_nil]
    | 0, _, a :: l => simp at h₁
    | _ + 1, 0, a :: l => simp at h₂
    | g₁ + 1, g₂ + 1, a :: l =>
      simp only [chunkedAux]
      have hlen : ((a :: l).drop n).length ≤ g₁ := by
        simp only [List.length_drop, List.length_cons] at h₁ ⊢
        omega
      have hlen₂ : ((a :: l).drop n).length ≤ g₂ := by
        simp only [List.length_drop, List.length_cons] at h₂ ⊢
        omega
      rw [ih g₁ (Nat.lt_succ_self _) g₂ _ hlen hlen₂]

theorem chunked_nil (n : Nat) : chunked ([] : List α) n = [] := by
  unfold chunked
  cases n <;> rfl

theorem chunked_cons (lst : List α) (n : Nat) (hn : 0 < n) (hne : lst ≠ []) :
    chunked lst n = lst.take n :: chunked (lst.drop n) n := by
  unfold chunked
  rw [if_neg (by omega), if_neg (by omega)]
  match lst, hne with
  | a :: l, _ =>
    simp only [List.length_cons, chunkedAux]
    congr 1
    exact chunkedAux_fuel_irrel n hn _ _ _
      (by simp only [List.length_drop, List.length_cons]; omega) (le_refl _)

theorem chunked_flatten_aux (n : Nat) (hn : 0 < n) :
    ∀ (len : Nat) (lst : List α), lst.length ≤ len → (chunked lst n).flatten = lst := by
  intro len
  induction len with
  | zero =>
    intro lst h
    have : lst = [] := List.eq_nil_of_length_eq_zero (Nat.le_zero.mp h)
    simp [this, chunked_nil]
  | succ k ih =>
    intro lst h
    cases lst with
    | nil => simp [chunked_nil]
    | cons a l =>
      rw [chunked_cons _ _ hn (by simp), List.flatten_cons,
        ih _ (by simp only [List.length_drop, List.length_cons] at *; omega)]
      exact List.take_append_drop n (a :: l)

/-- Concatenating the chunks in order reproduces the input (half of the
Batcher contract). -/
theorem chunked_flatten (n : Nat) (hn : 0 < n) (lst : List α) :
    (chunked lst n).flatten = lst :=
  chunked_flatten_aux n hn lst.length lst (le_refl _)

theorem chunkSizes_zero_len (n f : Nat) : chunkSizes n f 0 = [] := by
  cases f <;> simp [chunkSizes]

/-- The slice lengths `chunked` produces depend only on the input length. -/
theorem map_length_chunkedAux (n : Nat) :
    ∀ (fuel : Nat) (lst : List α),
      (chunkedAux n fuel lst).map List.length = chunkSizes n fuel lst.length := by
  intro fuel
  induction fuel with
  | zero => intro lst; simp [chunkedAux, chunkSizes]
  | succ f ih =>
    intro lst
    cases lst with
    | nil => simp [chunkedAux, chunkSizes]
    | cons a l =>
      simp only [chunkedAux, List.map_cons, List.length_take, List.length_cons, ih,
        List.length_drop, chunkSizes]

theorem map_length_chunked (lst : List α) (n : Nat) (hn : 0 < n) :
    (chunked lst n).map List.length = chunkSizes n lst.length lst.length := by
  unfold chunked
  rw [if_neg (by omega)]
  exact map_length_chunkedAux n lst.length lst

/-- Every slice size except possibly the last equals `n`. -/
theorem chunkSizes_dropLast (n : Nat) :
    ∀ (fuel len : Nat), ∀ s ∈ (chunkSizes n fuel len).dropLast, s = n := by
  intro fuel
  induction fuel with
  | zero => intro len s hs; simp [chunkSizes] at hs
  | succ f ih =>
    intro len s hs
    match len with
    | 0 => simp [chunkSizes] at hs
    | len + 1 =>
      rw [chunkSizes] at hs
      cases hrest : chunkSizes n f (len + 1 - n) with
      | nil => rw [hrest] at hs; simp at hs
      | cons b bs =>
        rw [hrest, List.dropLast_cons₂, List.mem_cons] at hs
        have hpos : len + 1 - n ≠ 0 := by
          intro h0
          rw [h0, chunkSizes_zero_len] at hrest
          exact List.noConfusion hrest
        cases hs with
        | inl h => rw [h]; omega
        | inr h => exact ih (len + 1 - n) s (by rw [hrest]; exact h)

/-- Every batch but possibly the last has exactly `n` items. -/
theorem chunked_dropLast_length (lst : List α) (n : Nat) (hn : 0 < n) :
    ∀ b ∈ (chunked lst n).dropLast, b.length = n := by
  intro b hb
  have : b.length ∈ ((chunked lst n).dropLast).map List.length :=
    List.mem_map_of_mem List.length hb
  rw [List.map_dropLast, map_length_chunked lst n hn] at this
  exact chunkSizes_dropLast n lst.length lst.length b.length this

/-- `load_seeds` is first-occurrence deduplication of the stripped, nonempty
input lines: the loading loop refines the spec-side `dedupFirst`. -/
theorem load_seeds_eq_dedupFirst (lines : List String) :
    load_seeds lines =
      dedupFirst ((lines.map pyStrip).filter (fun s => s ≠ "")) := by
  suffices h : ∀ (ls : List String) (acc : List String),
      ls.foldl
        (fun seeds l =>
          let s := pyStrip l
          if s ≠ "" ∧ s ∉ seeds then seeds ++ [s] else seeds) acc =
      ((ls.map pyStrip).filter (fun s => s ≠ "")).foldl
        (fun acc s => if s ∈ acc then acc else acc ++ [s]) acc by
    exact h lines []
  intro ls
  induction ls with
  | nil => intro acc; rfl
  | cons l t ih =>
    intro acc
    simp only [List.map_cons]
    by_cases hemp : pyStrip l = ""
    · have hf : (pyStrip l :: t.map pyStrip).filter (fun s => s ≠ "") =
          (t.map pyStrip).filter (fun s => s ≠ "") := by
        simp [List.filter_cons, hemp]
      rw [hf]
      simp only [List.foldl_cons]
      have h2 : ¬(pyStrip l ≠ "" ∧ pyStrip l ∉ acc) := fun h => h.1 hemp
      rw [if_neg h2]
      exact ih acc
    · have hf : (pyStrip l :: t.map pyStrip).filter (fun s => s ≠ "") =
          pyStrip l :: (t.map pyStrip).filter (fun s => s ≠ "") := by
        simp [List.filter_cons, hemp]
      rw [hf]
      simp only [List.foldl_cons]
      by_cases hmem : pyStrip l ∈ acc
      · have h2 : ¬(pyStrip l ≠ "" ∧ pyStrip l ∉ acc) := fun h => h.2 hmem
        rw [if_neg h2, if_pos hmem]
        exact ih acc
      · have h2 : pyStrip l ≠ "" ∧ pyStrip l ∉ acc := ⟨hemp, hmem⟩
        rw [if_pos h2, if_neg hmem]
        exact ih (acc ++ [pyStrip l])

/-! ### Job Client: `start_crawl` (lines 71-79) -/

/-- The outcome of the single HTTP POST issued by `start_crawl`: either a
response arrived (status code plus body text, `r.text` possibly `None`), or
`requests.post` raised. -/
inductive HttpOutcome where
  | resp (status : Nat) (text : Option String)
  | exc (msg : String)
deriving DecidableEq, Repr

/-- `requests.Response.ok`: true exactly when `raise_for_status()` would not
raise, i.e. when the status code is below 400 (2xx and 3xx alike). -/
def response_ok (status : Nat) : Bool := status < 400

/-- `start_crawl` (lines 71-79): perform one POST; on a response return
`(r.ok, r.status_code, (r.text or "").strip())`, on any exception return
`(False, -1, "EXCEPTION: ...")`.  Totality of this function models that
`start_crawl` never raises to its caller. -/
def start_crawl : HttpOutcome → Bool × Int × String
  | .resp status text => (response_ok status, (status : Int), pyStrip (text.getD ""))
  | .exc msg => (false, -1, "EXCEPTION: " ++ msg)

/-! ### Lifecycle Monitor: `get_crawl_state` (98-104), `wait_until_finished` (106-127) -/

/-- One entry of the `/crawls` listing, as `get_crawl_state` reads it:
`c.get("crawlerState")` and `c.get("crawlerRunning")`, either key possibly
absent. -/
structure CrawlEntry where
  crawlerState : Option String
  crawlerRunning : Option Bool
deriving DecidableEq, Repr

/-- `get_crawl_state` (lines 98-104): if the listing does not contain the
job (`crawls.get(crawl_name)` falsy) return `(None, None)`, otherwise the
entry's state and running fields. -/
def get_crawl_state (listing : Option CrawlEntry) : Option String × Option Bool :=
  match listing with
  | none => (none, none)
  | some c => (c.crawlerState, c.crawlerRunning)

/-- Python's `str.upper()` for the ASCII state vocabulary the service
emits. -/
def pyUpper (s : String) : String := ⟨s.data.map Char.toUpper⟩

/-- The stop condition of the poll loop (line 118):
`running is False or (state and state.upper() in TERMINAL_STATES)`.
Python's truthiness makes the empty string fail the `state and ...` test. -/
def stopCheck (state : Option String) (running : Option Bool) : Bool :=
  running == some false ||
    (match state with
     | some s => s != "" && TERMINAL_STATES.contains (pyUpper s)
     | none => false)

/-- Python's `state or "UNKNOWN"` (line 121): `None` and the empty string
both fall back to `"UNKNOWN"`. -/
def stateOrUnknown (state : Option String) : String :=
  match state with
  | some s => if s = "" then "UNKNOWN" else s
  | none => "UNKNOWN"

/-- The poll loop of `wait_until_finished`, one recursive call per
iteration.  `obs k` is the listing entry for the job seen by the `k`-th poll
(0-based); elapsed time after `k` completed sleeps is `k * pollInterval`
seconds, and the loop body is: observe, return on the stop condition, return
`TIMEOUT` when the elapsed time exceeds `maxWait`, else sleep and repeat.
The fuel only bounds the recursion; `maxWait / pollInterval + 2` is proven
sufficient whenever `0 < pollInterval` (`waitAux_fuel_irrel`). -/
def waitAux (obs : Nat → Option CrawlEntry) (pollInterval maxWait : Nat) :
    Nat → Nat → String × Nat
  | 0, k => ("OUT_OF_FUEL", k * pollInterval)
  | fuel + 1, k =>
    let sr := get_crawl_state (obs k)
    if stopCheck sr.1 sr.2 then (stateOrUnknown sr.1, k * pollInterval)
    else if k * pollInterval > maxWait then ("TIMEOUT", k * pollInterval)
    else waitAux obs pollInterval maxWait fuel (k + 1)

/-- `wait_until_finished` (lines 106-127), with the poll cadence and the
timeout budget as explicit parameters (the source reads them from the
constants `POLL_INTERVAL` and `MAX_WAIT_SECONDS`). -/
def wait_until_finished (obs : Nat → Option CrawlEntry)
    (pollInterval maxWait : Nat) : String × Nat :=
  waitAux obs pollInterval maxWait (maxWait / pollInterval + 2) 0

/-! ### Retry loop of the worker (lines 155-162) -/

/-- The state of `ok, code, msg` together with how often `start_crawl` was
invoked and the sleeps performed between attempts. -/
structure RetryOut where
  ok : Bool
  code : Option Int
  msg : String
  calls : Nat
  sleeps : List Nat
deriving DecidableEq, Repr

/-- The `for attempt in range(1, maxAttempts + 1)` loop (lines 156-162):
call `start_crawl`, break on acceptance, otherwise sleep `3 * attempt`
seconds and continue.  `submit a` is the outcome of the `a`-th call
(1-based); `remaining` counts the attempts the loop may still make. -/
def retryAux (submit : Nat → Bool × Int × String) : Nat → Nat → RetryOut
  | _, 0 => ⟨false, none, "", 0, []⟩
  | attempt, remaining + 1 =>
    let t := submit attempt
    if t.1 then ⟨true, some t.2.1, t.2.2, 1, []⟩
    else
      match remaining with
      | 0 => ⟨false, some t.2.1, t.2.2, 1, [3 * attempt]⟩
      | r + 1 =>
        let rest := retryAux submit (attempt + 1) (r + 1)
        ⟨rest.ok, rest.code, rest.msg, rest.calls + 1, 3 * attempt :: rest.sleeps⟩

/-- The whole retry phase of `worker_run`: attempts are numbered from 1 and
at most `maxAttempts` calls are made (`MAX_START_RETRY` in the source). -/
def withRetry (submit : Nat → Bool × Int × String) (maxAttempts : Nat) : RetryOut :=
  retryAux submit 1 maxAttempts

/-! ### Worker: `worker_run` (lines 145-180) -/

/-- One row of `_csv_rows` / the CSV log, following `_header` (lines
142-143).  `start_code` is an `Option` because the Python variable `code`
is initialized to `None` and would stay `None` if the retry loop made no
attempt. -/
structure Row where
  batch_idx : Nat
  crawl_name : String
  num_seeds : Nat
  start_ok : Bool
  start_code : Option Int
  start_msg : String
  final_state : String
  duration_sec : Nat
deriving DecidableEq, Repr

/-- The external effects one worker invocation can observe: the outcome of
each `start_crawl` call (1-based attempt number), the poll observations of
its job, and — for the `except Exception` branch — an unexpected fault.
In the source every append to `_csv_rows` is the last statement of its
branch of the `try` body, so an unexpected fault always strikes before any
row was appended; `fault = some e` therefore preempts the whole body. -/
structure WorkerEnv where
  submit : Nat → Bool × Int × String
  obs : Nat → Option CrawlEntry
  fault : Option String

/-- `worker_run` (lines 145-180): retry submission, then either record
`NOT_STARTED`, or await the monitor and record its final state; any
unexpected fault is caught and recorded as a row itself.  The result is the
list of rows appended to `_csv_rows` paired with whether the `finally`
block released the semaphore; totality models that no exception escapes. -/
def worker_run (env : WorkerEnv) (idx : Nat) (name : String)
    (seeds_group : List String) (maxRetry : Nat) : List Row × Bool :=
  match env.fault with
  | some e =>
    ([⟨idx, name, seeds_group.length, false, some (-1), "EXCEPTION: " ++ e,
        "UNKNOWN", 0⟩], true)
  | none =>
    let r := withRetry env.submit maxRetry
    if r.ok then
      let m := wait_until_finished env.obs POLL_INTERVAL MAX_WAIT_SECONDS
      ([⟨idx, name, seeds_group.length, true, r.code, r.msg, m.1, m.2⟩], true)
    else
      ([⟨idx, name, seeds_group.length, false, r.code, r.msg,
          "NOT_STARTED", 0⟩], true)

/-! ### `main` (lines 182-222) -/

/-- `load_seeds` including its missing-file guard (lines 56-58): a missing
seeds file yields the empty list instead of an exception. -/
def load_seeds_file (file : Option (List String)) : List String :=
  match file with
  | none => []
  | some lines => load_seeds lines

/-- What `main` decides to do after loading (lines 184-189): `if not seeds:`
log the no-work condition and return, else build the batches and dispatch. -/
inductive MainPhase where
  | noWork
  | dispatch (batches : List (List String))
deriving DecidableEq, Repr

def main_plan (file : Option (List String)) : MainPhase :=
  let seeds := load_seeds_file file
  if seeds = [] then MainPhase.noWork
  else MainPhase.dispatch (chunked seeds BATCH_SIZE)

/-- The observable steps of `main`'s `try` block (lines 196-212) in program
order, plus the final CSV write (lines 219-220). -/
inductive Action where
  | semAcquire
  | startWorker (idx : Nat)
  | sleepStagger
  | joinWorker (idx : Nat)
  | writeCsv
deriving DecidableEq, Repr

/-- One iteration of the dispatch loop (lines 197-208): acquire a semaphore
unit, start the worker thread for this batch, sleep the stagger interval. -/
def dispatchIter (idx : Nat) : List Action :=
  [Action.semAcquire, Action.startWorker idx, Action.sleepStagger]

/-- The straight-line `try` body of `main`: the dispatch loop over all
batches followed by the join loop over every started thread (lines
197-212).  The join loop is INSIDE the `try` block in the source. -/
def tryBody (numBatches : Nat) : List Action :=
  ((List.range numBatches).map (fun i => dispatchIter (i + 1))).flatten
    ++ (List.range numBatches).map (fun i => Action.joinWorker (i + 1))

/-- The actions `main` actually executes.  `kiAt = some m` means a
`KeyboardInterrupt` arrives at the `m`-th action of the `try` body: control
jumps to the `except KeyboardInterrupt` handler (lines 214-216), which only
logs, and execution resumes at the CSV write — everything after the
interrupt point inside the `try` body, the join loop included, is skipped. -/
def main_actions (numBatches : Nat) (kiAt : Option Nat) : List Action :=
  match kiAt with
  | none => tryBody numBatches ++ [Action.writeCsv]
  | some m => (tryBody numBatches).take m ++ [Action.writeCsv]

/-- Batch indices whose worker threads were started. -/
def startedIn (acts : List Action) : List Nat :=
  acts.filterMap (fun a => match a with | Action.startWorker i => some i | _ => none)

/-- Batch indices whose worker threads were joined. -/
def joinedIn (acts : List Action) : List Nat :=
  acts.filterMap (fun a => match a with | Action.joinWorker i => some i | _ => none)

/-- The batch indices whose outcome rows are in `_csv_rows` when the CSV is
written: a started worker's row is present if the worker was joined (the
join returns only after the worker's `finally`, hence after its append), or
if it happened to finish on its own before the write (`finishedEarly`).
Workers are daemon threads (line 203), so unjoined workers are killed when
the process exits. -/
def csvRowsWritten (numBatches : Nat) (kiAt : Option Nat)
    (finishedEarly : Nat → Bool) : List Nat :=
  let acts := main_actions numBatches kiAt
  (startedIn acts).filter
    (fun i => (joinedIn acts).contains i || finishedEarly i)

/-! ### Semaphore discipline (lines 193, 198, 180) -/

/-- The semaphore counter together with the number of workers that have
been started and have not yet released their unit. -/
structure SemState where
  sem : Nat
  active : Nat
deriving DecidableEq, Repr

/-- The two operations on the shared semaphore: the dispatch loop's
`sema.acquire()` immediately followed by `t.start()` (lines 198-204), and a
worker's `sema.release()` in its `finally` block (line 180).  `acquire`
blocks while the counter is zero, so a trace of a real run contains it only
when the counter is positive — modeled by the event being disabled. -/
inductive SemEvent where
  | acquireStart
  | releaseFinish
deriving DecidableEq, Repr

def semStep : SemState → SemEvent → Option SemState
  | s, SemEvent.acquireStart =>
    if s.sem = 0 then none else some ⟨s.sem - 1, s.active + 1⟩
  | s, SemEvent.releaseFinish =>
    if s.active = 0 then none else some ⟨s.sem + 1, s.active - 1⟩

/-- Run a sequence of semaphore events from the initial state
`Semaphore(C)` with no active worker (line 193). -/
def runSem (C : Nat) (evs : List SemEvent) : Option SemState :=
  evs.foldl (fun st e => st.bind (fun s => semStep s e)) (some ⟨C, 0⟩)

/-! #### Lemmas about the Lifecycle Monitor -/

/-- The stop condition as seen on a raw listing entry. -/
def obsStop (e : Option CrawlEntry) : Bool :=
  stopCheck (get_crawl_state e).1 (get_crawl_state e).2

theorem waitAux_stop (obs : Nat → Option CrawlEntry) (pI mW : Nat) :
    ∀ (fuel k k₀ : Nat), k ≤ k₀ → k₀ - k < fuel →
      (∀ j, k ≤ j → j < k₀ → obsStop (obs j) = false ∧ j * pI ≤ mW) →
      obsStop (obs k₀) = true →
      waitAux obs pI mW fuel k =
        (stateOrUnknown (get_crawl_state (obs k₀)).1, k₀ * pI) := by
  intro fuel
  induction fuel with
  | zero => intro k k₀ hk hfuel _ _; omega
  | succ f ih =>
    intro k k₀ hk hfuel hpre hstop
    rcases Nat.eq_or_lt_of_le hk with heq | hlt
    · subst heq
      simp only [waitAux]
      rw [show stopCheck (get_crawl_state (obs k)).1 (get_crawl_state (obs k)).2 =
            obsStop (obs k) from rfl, hstop]
      simp
    · have hkj := hpre k (le_refl k) hlt
      simp only [waitAux]
      rw [show stopCheck (get_crawl_state (obs k)).1 (get_crawl_state (obs k)).2 =
            obsStop (obs k) from rfl, hkj.1]
      simp only [Bool.false_eq_true, if_false]
      rw [if_neg (by omega)]
      exact ih (k + 1) k₀ hlt (by omega)
        (fun j hj₁ hj₂ => hpre j (by omega) hj₂) hstop

theorem waitAux_timeout (obs : Nat → Option CrawlEntry) (pI mW : Nat)
    (hpI : 0 < pI) :
    ∀ (fuel k : Nat), mW / pI + 1 - k < fuel → k ≤ mW / pI + 1 →
      (∀ j, k ≤ j → j ≤ mW / pI + 1 → obsStop (obs j) = false) →
      waitAux obs pI mW fuel k = ("TIMEOUT", (mW / pI + 1) * pI) := by
  intro fuel
  induction fuel with
  | zero => intro k hfuel _ _; omega
  | succ f ih =>
    intro k hfuel hk hpre
    simp only [waitAux]
    rw [show stopCheck (get_crawl_state (obs k)).1 (get_crawl_state (obs k)).2 =
          obsStop (obs k) from rfl, hpre k (le_refl k) hk]
    simp only [Bool.false_eq_true, if_false]
    rcases Nat.eq_or_lt_of_le hk with heq | hlt
    · rw [if_pos]
      · rw [heq]
      · rw [heq]
        have h2 : mW < (mW / pI + 1) * pI := by
          calc mW = pI * (mW / pI) + mW % pI := (Nat.div_add_mod mW pI).symm
            _ < pI * (mW / pI) + pI := by
                have hm : mW % pI < pI := Nat.mod_lt _ hpI
                omega
            _ = (mW / pI + 1) * pI := by ring
        omega
    · rw [if_neg]
      · exact ih (k + 1) (by omega) hlt (fun j hj₁ hj₂ => hpre j (by omega) hj₂)
      · have : k ≤ mW / pI := by omega
        have := Nat.mul_le_mul_right pI this
        have h1 : mW / pI * pI ≤ mW := Nat.div_mul_le_self mW pI
        omega

/-! #### Lemmas about the retry loop -/

theorem cons_range_map (attempt f : Nat) :
    3 * attempt :: (List.range f).map (fun i => 3 * (attempt + 1 + i)) =
      (List.range (f + 1)).map (fun i => 3 * (attempt + i)) := by
  rw [List.range_succ_eq_map, List.map_cons, List.map_map]
  refine List.cons_eq_cons.mpr ⟨by omega, List.map_congr_left (fun a _ => ?_)⟩
  simp [Function.comp]
  omega

/-- If the first `f` calls (numbered `attempt, attempt+1, ...`) fail and
call `attempt + f` is accepted, the loop stops there: `f + 1` calls, the
accepted call's code and message, and one sleep of `3 * a` seconds after
each failed attempt `a`. -/
theorem retryAux_succeeds (submit : Nat → Bool × Int × String) :
    ∀ (f attempt remaining : Nat),
      (∀ j, attempt ≤ j → j < attempt + f → (submit j).1 = false) →
      (submit (attempt + f)).1 = true →
      f < remaining →
      retryAux submit attempt remaining =
        ⟨true, some (submit (attempt + f)).2.1, (submit (attempt + f)).2.2,
          f + 1, (List.range f).map (fun i => 3 * (attempt + i))⟩ := by
  intro f
  induction f with
  | zero =>
    intro attempt remaining _ hok hrem
    rw [Nat.add_zero] at hok ⊢
    match remaining, hrem with
    | 1, _ => rw [retryAux.eq_2, if_pos hok]; simp
    | r + 2, _ => rw [retryAux.eq_3, if_pos hok]; simp
  | succ f ih =>
    intro attempt remaining hfail hok hrem
    have hfa : (submit attempt).1 = false := hfail attempt (le_refl _) (by omega)
    match remaining, hrem with
    | r + 2, h2 =>
      rw [retryAux.eq_3, if_neg (by simp [hfa])]
      rw [ih (attempt + 1) (r + 1)
        (fun j hj₁ hj₂ => hfail j (by omega) (by omega))
        (by rw [show attempt + 1 + f = attempt + (f + 1) by omega]; exact hok)
        (by omega)]
      rw [show attempt + 1 + f = attempt + (f + 1) by omega]
      simp only [RetryOut.mk.injEq, true_and, and_true]
      exact cons_range_map attempt f

/-- If every call the loop can make fails, it makes exactly `remaining`
calls and keeps the last failure's code and message; a sleep of `3 * a`
seconds follows every failed attempt `a`, the last one included. -/
theorem retryAux_all_fail (submit : Nat → Bool × Int × String) :
    ∀ (remaining attempt : Nat), 0 < remaining →
      (∀ j, attempt ≤ j → j < attempt + remaining → (submit j).1 = false) →
      retryAux submit attempt remaining =
        ⟨false, some (submit (attempt + remaining - 1)).2.1,
          (submit (attempt + remaining - 1)).2.2, remaining,
          (List.range remaining).map (fun i => 3 * (attempt + i))⟩ := by
  intro remaining
  induction remaining with
  | zero => intro attempt h; omega
  | succ r ih =>
    intro attempt _ hfail
    have hfa : (submit attempt).1 = false := hfail attempt (le_refl _) (by omega)
    cases r with
    | zero =>
      rw [retryAux.eq_2, if_neg (by simp [hfa])]
      simp [List.range_succ]
    | succ r' =>
      rw [retryAux.eq_3, if_neg (by simp [hfa])]
      rw [ih (attempt + 1) (by omega) (fun j hj₁ hj₂ => hfail j (by omega) (by omega))]
      rw [show attempt + 1 + (r' + 1) - 1 = attempt + (r' + 1 + 1) - 1 by omega]
      simp only [RetryOut.mk.injEq, true_and, and_true]
      exact cons_range_map attempt (r' + 1)

/-! #### Lemmas about the semaphore discipline -/

theorem semStep_inv (C : Nat) (st st' : SemState) (e : SemEvent)
    (h : semStep st e = some st') (hC : st.sem + st.active = C) :
    st'.sem + st'.active = C := by
  cases e with
  | acquireStart =>
    simp only [semStep] at h
    by_cases hz : st.sem = 0
    · rw [if_pos hz] at h
      exact absurd h (by simp)
    · rw [if_neg hz] at h
      have hs := Option.some.inj h
      rw [← hs]
      simp only []
      omega
  | releaseFinish =>
    simp only [semStep] at h
    by_cases hz : st.active = 0
    · rw [if_pos hz] at h
      exact absurd h (by simp)
    · rw [if_neg hz] at h
      have hs := Option.some.inj h
      rw [← hs]
      simp only []
      omega

theorem runSem_from_none :
    ∀ (evs : List SemEvent),
      evs.foldl (fun st e => st.bind (fun s => semStep s e)) none = none := by
  intro evs
  induction evs with
  | nil => rfl
  | cons e t ih => simp only [List.foldl_cons, Option.none_bind]; exact ih

theorem runSem_inv (C : Nat) :
    ∀ (evs : List SemEvent) (st s : SemState),
      evs.foldl (fun st e => st.bind (fun s => semStep s e)) (some st) = some s →
      st.sem + st.active = C → s.sem + s.active = C := by
  intro evs
  induction evs with
  | nil =>
    intro st s h hC
    simp only [List.foldl_nil] at h
    rw [← Option.some.inj h]
    exact hC
  | cons e t ih =>
    intro st s h hC
    simp only [List.foldl_cons, Option.some_bind] at h
    cases hstep : semStep st e with
    | none => rw [hstep, runSem_from_none] at h; exact absurd h (by simp)
    | some st' =>
      rw [hstep] at h
      exact ih st' s h (semStep_inv C st st' e hstep hC)

/-- Shared characterization: if every poll before `k₀` neither stops the
loop nor exhausts the budget, and poll `k₀` satisfies the stop condition,
`wait_until_finished` returns at poll `k₀` with `state or "UNKNOWN"` and
the elapsed time of `k₀` sleeps. -/
theorem wait_stop_char (obs : Nat → Option CrawlEntry) (pI mW k₀ : Nat)
    (hpI : 0 < pI)
    (hpre : ∀ j, j < k₀ → obsStop (obs j) = false ∧ j * pI ≤ mW)
    (hstop : obsStop (obs k₀) = true) :
    wait_until_finished obs pI mW =
      (stateOrUnknown (get_crawl_state (obs k₀)).1, k₀ * pI) := by
  unfold wait_until_finished
  have hk₀ : k₀ ≤ mW / pI + 1 := by
    cases k₀ with
    | zero => exact Nat.zero_le _
    | succ k =>
      have h := (hpre k (by omega)).2
      have hd : k ≤ mW / pI := (Nat.le_div_iff_mul_le hpI).mpr h
      exact Nat.succ_le_succ hd
  exact waitAux_stop obs pI mW (mW / pI + 2) 0 k₀ (Nat.zero_le _)
    (by rw [Nat.sub_zero]; exact Nat.lt_succ_of_le hk₀)
    (fun j _ hj => hpre j hj) hstop

/-- Shared characterization: if no poll that fits into the budget satisfies
the stop condition, `wait_until_finished` returns the sentinel `TIMEOUT`
at the first poll whose elapsed time exceeds `maxWait`. -/
theorem wait_timeout_char (obs : Nat → Option CrawlEntry) (pI mW : Nat)
    (hpI : 0 < pI)
    (hns : ∀ j, j ≤ mW / pI + 1 → obsStop (obs j) = false) :
    wait_until_finished obs pI mW = ("TIMEOUT", (mW / pI + 1) * pI) := by
  unfold wait_until_finished
  exact waitAux_timeout obs pI mW hpI (mW / pI + 2) 0
    (by rw [Nat.sub_zero]; exact Nat.lt_succ_self _) (Nat.zero_le _)
    (fun j _ hj => hns j hj)

/-! ## Claim theorems -/

/-- C1 counterexample: the claim says an unexpected exception inside the
worker is recorded as a row with state `"UNKNOWN_ERROR"`.  The code (line
178) appends `"UNKNOWN"`.  A worker whose body faults with `"boom"` appends
exactly the row below, whose `final_state` is `"UNKNOWN"`, which differs
from the claimed `"UNKNOWN_ERROR"`. -/
theorem C1_unknown_error_counterexample :
    (worker_run ⟨fun _ => (false, 500, "err"), fun _ => none, some "boom"⟩
        1 "job" ["u"] MAX_START_RETRY).1 =
      [⟨1, "job", 1, false, some (-1), "EXCEPTION: boom", "UNKNOWN", 0⟩]
    ∧ "UNKNOWN" ≠ "UNKNOWN_ERROR" := by decide

/-- C1 amended: every invocation of `worker_run` appends exactly one
outcome row: after exhausted retries a row with `accepted = false` and
state `"NOT_STARTED"`; after an accepted submission a row with
`accepted = true` and the final state returned by the monitor; on an
unexpected fault a row with state `"UNKNOWN"` (the code's actual sentinel,
amended from the claimed `"UNKNOWN_ERROR"`).  The second conjunct is the
`finally` release on every path; totality of `worker_run` models that no
exception propagates to the caller. -/
theorem C1_worker_appends_one_row (env : WorkerEnv) (idx : Nat) (name : String)
    (g : List String) (maxRetry : Nat) :
    (worker_run env idx name g maxRetry).1.length = 1
    ∧ (worker_run env idx name g maxRetry).2 = true
    ∧ (worker_run env idx name g maxRetry).1.map Row.final_state =
        [match env.fault with
         | some _ => "UNKNOWN"
         | none =>
           if (withRetry env.submit maxRetry).ok then
             (wait_until_finished env.obs POLL_INTERVAL MAX_WAIT_SECONDS).1
           else "NOT_STARTED"]
    ∧ (worker_run env idx name g maxRetry).1.map Row.start_ok =
        [match env.fault with
         | some _ => false
         | none => (withRetry env.submit maxRetry).ok] := by
  cases hf : env.fault with
  | some e => simp [worker_run, hf]
  | none =>
    by_cases hok : (withRetry env.submit maxRetry).ok
    · simp [worker_run, hf, hok]
    · simp [worker_run, hf, hok]

/-- C2: loading deduplicates by exact string equality keeping the first
occurrence in first-seen order (`load_seeds` equals the spec-side
`dedupFirst` of the stripped nonempty lines); for every positive batch size
`N`, the in-order concatenation of the batches equals the deduplicated
list; every batch except possibly the last has exactly `N` items; and any
237-item list batched with `N = 50` gives sizes `[50, 50, 50, 50, 37]`. -/
theorem C2_batcher_contract :
    (∀ lines : List String,
      load_seeds lines = dedupFirst ((lines.map pyStrip).filter (fun s => s ≠ "")))
    ∧ (∀ (lines : List String) (N : Nat), 0 < N →
        (chunked (load_seeds lines) N).flatten = load_seeds lines)
    ∧ (∀ (L : List String) (N : Nat), 0 < N →
        ∀ b ∈ (chunked L N).dropLast, b.length = N)
    ∧ (∀ L : List String, L.length = 237 →
        (chunked L 50).map List.length = [50, 50, 50, 50, 37]) := by
  refine ⟨load_seeds_eq_dedupFirst, ?_, ?_, ?_⟩
  · intro lines N hN
    exact chunked_flatten N hN _
  · intro L N hN
    exact chunked_dropLast_length L N hN
  · intro L hL
    rw [map_length_chunked L 50 (by omega), hL]
    decide

/-- C2 witness: the contract evaluated at concrete inputs — a seeds file
with a duplicate, surrounding whitespace and a blank line, batch size 2;
and a 237-item list with batch size 50. -/
theorem C2_batcher_contract_witness :
    (chunked (load_seeds ["a ", "b", "a", " ", "c"]) 2).flatten =
      load_seeds ["a ", "b", "a", " ", "c"]
    ∧ (["x", "y"] : List String).length = 2
    ∧ (chunked (List.replicate 237 "x") 50).map List.length = [50, 50, 50, 50, 37] :=
  ⟨C2_batcher_contract.2.1 ["a ", "b", "a", " ", "c"] 2 (by decide),
   C2_batcher_contract.2.2.1 ["x", "y", "z"] 2 (by decide) ["x", "y"] (by decide),
   C2_batcher_contract.2.2.2 (List.replicate 237 "x") (List.length_replicate 237 "x")⟩

/-- C3: with attempts numbered from 1, if attempts `1..f` fail and attempt
`f + 1` is accepted with `f + 1 ≤ maxAttempts`, the loop makes exactly
`f + 1` calls and returns the accepted call's status and message; if every
attempt fails, exactly `maxAttempts` calls are made and the last failure's
status and message are kept.  The `sleeps` list records the backoff: the
delay after failed attempt `i` (entry `i - 1`, i.e. the wait before attempt
`i + 1`) is `3 * i` seconds — linear in the attempt number with base delay
3, not exponential. -/
theorem C3_retry_policy (submit : Nat → Bool × Int × String) (f maxAttempts : Nat) :
    ((∀ i, 1 ≤ i → i ≤ f → (submit i).1 = false) → (submit (f + 1)).1 = true →
      f + 1 ≤ maxAttempts →
      withRetry submit maxAttempts =
        ⟨true, some (submit (f + 1)).2.1, (submit (f + 1)).2.2, f + 1,
          (List.range f).map (fun i => 3 * (1 + i))⟩)
    ∧ ((∀ i, 1 ≤ i → i ≤ maxAttempts → (submit i).1 = false) → 1 ≤ maxAttempts →
      withRetry submit maxAttempts =
        ⟨false, some (submit maxAttempts).2.1, (submit maxAttempts).2.2, maxAttempts,
          (List.range maxAttempts).map (fun i => 3 * (1 + i))⟩) := by
  constructor
  · intro hfail hok hle
    unfold withRetry
    have h := retryAux_succeeds submit f 1 maxAttempts
      (fun j hj₁ hj₂ => hfail j hj₁ (by omega))
      (by rw [show 1 + f = f + 1 by omega]; exact hok)
      (by omega)
    rw [h, show 1 + f = f + 1 by omega]
  · intro hfail hpos
    unfold withRetry
    have h := retryAux_all_fail submit maxAttempts 1 (by omega)
      (fun j hj₁ hj₂ => hfail j hj₁ (by omega))
    rw [h, show 1 + maxAttempts - 1 = maxAttempts by omega]

/-- C3 witness: an operation that fails twice then succeeds, and one that
always fails, both with `maxAttempts = MAX_START_RETRY = 3`. -/
theorem C3_retry_policy_witness :
    withRetry (fun a => (a == 3, (500 : Int), "created")) MAX_START_RETRY =
      ⟨true, some 500, "created", 3, [3, 6]⟩
    ∧ withRetry (fun _ => (false, (503 : Int), "svc")) MAX_START_RETRY =
      ⟨false, some 503, "svc", 3, [3, 6, 9]⟩ := by
  constructor
  · have h := (C3_retry_policy (fun a => (a == 3, (500 : Int), "created")) 2 MAX_START_RETRY).1
      (by intro i h1 h2; interval_cases i <;> decide) (by decide) (by decide)
    exact h.trans (by decide)
  · have h := (C3_retry_policy (fun _ => (false, (503 : Int), "svc")) 0 MAX_START_RETRY).2
      (by intro i h1 h2; decide) (by decide)
    exact h.trans (by decide)

/-- C4: `wait_until_finished` returns at the first poll whose observation
satisfies the stop condition — the running flag explicitly `false`, or the
state string, uppercased, in `TERMINAL_STATES` (`obsStop`) — with that
poll's `state or "UNKNOWN"` value; if no poll that fits the budget
satisfies it, the sentinel `"TIMEOUT"` is returned regardless of earlier
observations; and a job never present in the listing (every observation
`(none, none)`) is never treated as finished: the result is `"TIMEOUT"`. -/
theorem C4_await_terminal (pI mW : Nat) (hpI : 0 < pI) :
    (∀ (obs : Nat → Option CrawlEntry) (k₀ : Nat),
        (∀ j, j < k₀ → obsStop (obs j) = false ∧ j * pI ≤ mW) →
        obsStop (obs k₀) = true →
        wait_until_finished obs pI mW =
          (stateOrUnknown (get_crawl_state (obs k₀)).1, k₀ * pI))
    ∧ (∀ obs : Nat → Option CrawlEntry,
        (∀ j, j ≤ mW / pI + 1 → obsStop (obs j) = false) →
        wait_until_finished obs pI mW = ("TIMEOUT", (mW / pI + 1) * pI))
    ∧ (∀ obs : Nat → Option CrawlEntry,
        (∀ j, get_crawl_state (obs j) = (none, none)) →
        wait_until_finished obs pI mW = ("TIMEOUT", (mW / pI + 1) * pI)) := by
  refine ⟨?_, ?_, ?_⟩
  · intro obs k₀ hpre hstop
    exact wait_stop_char obs pI mW k₀ hpI hpre hstop
  · intro obs hns
    exact wait_timeout_char obs pI mW hpI hns
  · intro obs hnone
    apply wait_timeout_char obs pI mW hpI
    intro j _
    unfold obsStop
    rw [hnone j]
    rfl

/-- C4 witness: a job whose third poll reports a terminal state; a job that
always reports `RUNNING`; and a job never present in the listing — with a
5-second cadence and a 20-second budget. -/
theorem C4_await_terminal_witness :
    wait_until_finished
        (fun k => if k = 2 then some ⟨some "Finished", some true⟩
                  else some ⟨some "RUNNING", some true⟩) 5 20 = ("Finished", 10)
    ∧ wait_until_finished (fun _ => some ⟨some "RUNNING", some true⟩) 5 20 =
        ("TIMEOUT", 25)
    ∧ wait_until_finished (fun _ => none) 5 20 = ("TIMEOUT", 25) := by
  refine ⟨?_, ?_, ?_⟩
  · have h := (C4_await_terminal 5 20 (by decide)).1
      (fun k => if k = 2 then some ⟨some "Finished", some true⟩
                else some ⟨some "RUNNING", some true⟩) 2
      (by intro j hj; interval_cases j <;> exact ⟨by decide, by decide⟩)
      (by decide)
    exact h.trans (by decide)
  · have h := (C4_await_terminal 5 20 (by decide)).2.1
      (fun _ => some ⟨some "RUNNING", some true⟩)
      (by intro j hj; rfl)
    exact h.trans (by decide)
  · have h := (C4_await_terminal 5 20 (by decide)).2.2 (fun _ => none) (fun j => rfl)
    exact h.trans (by decide)

/-- C5 counterexample: the claim says `accepted = true` iff the response
status is 2xx.  `start_crawl` returns `requests`' `r.ok`, which is true for
every status below 400, so the 3xx response 304 is accepted although it is
not 2xx. -/
theorem C5_not_2xx_counterexample :
    start_crawl (HttpOutcome.resp 304 (some "Not Modified")) =
      (true, 304, "Not Modified")
    ∧ ¬(200 ≤ 304 ∧ 304 ≤ 299) := by decide

/-- C5 amended: `start_crawl` returns `accepted = true` iff the response
status is below 400 (2xx or 3xx — `requests.Response.ok`), a non-ok
response yields `accepted = false` with the response's status code and
stripped body text, and a network failure or exception yields
`(false, -1, "EXCEPTION: ...")`.  Totality models that `start_crawl` never
raises to its caller. -/
theorem C5_submit_accepted_iff_ok :
    (∀ (st : Nat) (txt : Option String),
      ((start_crawl (HttpOutcome.resp st txt)).1 = true ↔ st < 400))
    ∧ (∀ (st : Nat) (txt : Option String), 400 ≤ st →
        start_crawl (HttpOutcome.resp st txt) =
          (false, (st : Int), pyStrip (txt.getD "")))
    ∧ (∀ m, start_crawl (HttpOutcome.exc m) = (false, -1, "EXCEPTION: " ++ m)) := by
  refine ⟨?_, ?_, fun m => rfl⟩
  · intro st txt
    simp [start_crawl, response_ok]
  · intro st txt h
    have hne : response_ok st = false := by
      simp [response_ok]
      omega
    simp [start_crawl, hne]

/-- C5 witness: a 503 response with padded body text is rejected with its
status code and stripped message. -/
theorem C5_submit_witness :
    start_crawl (HttpOutcome.resp 503 (some " Service Unavailable ")) =
      (false, 503, "Service Unavailable") := by
  have h := C5_submit_accepted_iff_ok.2.1 503 (some " Service Unavailable ") (by decide)
  exact h.trans (by decide)

/-- C6 (code bug): the claim — and the code's own interrupt log message,
"stopped launching new batches, waiting for the already-started batches to
finish" (line 215) — says that after a `KeyboardInterrupt` the program
still waits for every started worker before writing the log.  But the join
loop (lines 211-212) sits INSIDE the `try` block, so an interrupt during
dispatch jumps straight past it: with 2 batches and the interrupt arriving
during the stagger sleep after launching batch 1 (`main_actions 2 (some
3)`), batch 1 was started, no thread is joined, and if the in-flight daemon
worker has not appended its row by the time the CSV is written, the log has
0 rows for 1 launched batch.  The last two conjuncts show the join loop and
the complete log in an uninterrupted run, confirming the skip is caused by
the interrupt path alone. -/
theorem C6_interrupt_skips_join :
    startedIn (main_actions 2 (some 3)) = [1]
    ∧ joinedIn (main_actions 2 (some 3)) = []
    ∧ csvRowsWritten 2 (some 3) (fun _ => false) = []
    ∧ joinedIn (main_actions 2 none) = [1, 2]
    ∧ csvRowsWritten 2 none (fun _ => false) = [1, 2] := by decide

/-- C7: starting from `Semaphore(MAX_CONCURRENCY)` — or any ceiling `C` —
with every worker start preceded by an acquire and every worker exit
releasing exactly once, the number of started-but-not-yet-released workers
never exceeds the ceiling, in every reachable state of every event
sequence. -/
theorem C7_concurrency_ceiling (C : Nat) (evs : List SemEvent) (s : SemState)
    (h : runSem C evs = some s) : s.active ≤ C := by
  have hC := runSem_inv C evs ⟨C, 0⟩ s (by unfold runSem at h; exact h) (by simp)
  omega

/-- C7 witness: two acquires, one release and another acquire under the
source's ceiling of 4 leave 2 active workers, within the ceiling. -/
theorem C7_concurrency_ceiling_witness :
    (SemState.mk 2 2).active ≤ MAX_CONCURRENCY :=
  C7_concurrency_ceiling MAX_CONCURRENCY
    [SemEvent.acquireStart, SemEvent.acquireStart, SemEvent.releaseFinish,
      SemEvent.acquireStart] ⟨2, 2⟩ (by decide)

/-- C8 counterexample: the claim places the loop's termination at the poll
where the listing no longer contains the job with a not-running signal as
the last observation.  In the run below, poll 0 observes the explicit
not-running signal and poll 1 is the first where the listing no longer
contains the job, so the claim as stated has the loop terminate at poll 1
(elapsed `1 * 5` seconds).  The code already returns at poll 0 (elapsed 0):
an observation with `running = False` stops the loop on the spot, so a
subsequent listing-absence poll is never reached at all. -/
theorem C8_absence_counterexample :
    wait_until_finished
        (fun k => if k = 0 then some ⟨some "RUNNING", some false⟩ else none) 5 3600
      = ("RUNNING", 0)
    ∧ ((wait_until_finished
        (fun k => if k = 0 then some ⟨some "RUNNING", some false⟩ else none)
          5 3600).2 ≠ 1 * 5) := by decide

/-- C8 amended: when an explicit not-running signal is observed at a poll
(the situation in which the listing may subsequently drop the job), the
loop terminates at that very poll, exactly as if a terminal state had been
reached — returning `state or "UNKNOWN"` and the elapsed time of that poll
— rather than continuing to poll until the timeout.  Any later poll where
the listing no longer contains the job is therefore never reached. -/
theorem C8_not_running_stops (obs : Nat → Option CrawlEntry)
    (pI mW k₀ : Nat) (hpI : 0 < pI)
    (hpre : ∀ j, j < k₀ → obsStop (obs j) = false ∧ j * pI ≤ mW)
    (hrun : (get_crawl_state (obs k₀)).2 = some false) :
    wait_until_finished obs pI mW =
      (stateOrUnknown (get_crawl_state (obs k₀)).1, k₀ * pI) := by
  have hstop : obsStop (obs k₀) = true := by
    unfold obsStop
    rw [show stopCheck (get_crawl_state (obs k₀)).1 (get_crawl_state (obs k₀)).2 =
      ((get_crawl_state (obs k₀)).2 == some false ||
        (match (get_crawl_state (obs k₀)).1 with
         | some s => s != "" && TERMINAL_STATES.contains (pyUpper s)
         | none => false)) from rfl, hrun]
    simp
  exact wait_stop_char obs pI mW k₀ hpI hpre hstop

/-- C8 witness: a job that polls as running twice, then reports an explicit
not-running signal at poll 2; the loop returns there, as if terminal. -/
theorem C8_not_running_stops_witness :
    wait_until_finished
      (fun k => if k = 2 then some ⟨some "TeRmInAtInG", some false⟩
                else some ⟨some "RUNNING", some true⟩) 5 3600
      = ("TeRmInAtInG", 10) := by
  have h := C8_not_running_stops
    (fun k => if k = 2 then some ⟨some "TeRmInAtInG", some false⟩
              else some ⟨some "RUNNING", some true⟩) 5 3600 2 (by decide)
    (by intro j hj; interval_cases j <;> exact ⟨by decide, by decide⟩)
    (by decide)
  exact h.trans (by decide)

/-- C9: a missing seeds file loads as the empty list instead of raising
(`load_seeds_file none = []`); whenever the loaded seed list is empty,
`main` takes the explicit no-work exit (`MainPhase.noWork`) before any
batch is built or any job submitted, returning normally (totality); and
the empty list produces zero batches. -/
theorem C9_empty_input_no_work :
    load_seeds_file none = []
    ∧ (∀ file, load_seeds_file file = [] → main_plan file = MainPhase.noWork)
    ∧ (∀ n : Nat, chunked ([] : List String) n = []) := by
  refine ⟨rfl, ?_, fun n => chunked_nil n⟩
  intro file h
  simp [main_plan, h]

/-- C9 witness: a seeds file holding only a blank and a whitespace line
loads as empty and sends `main` to the no-work exit. -/
theorem C9_empty_input_no_work_witness :
    main_plan (some [" ", ""]) = MainPhase.noWork :=
  C9_empty_input_no_work.2.1 (some [" ", ""]) (by decide)

/-- C10: when the stop condition is met through `running = False` while the
observed state string is absent (or empty), `wait_until_finished` returns
the fallback string `"UNKNOWN"` — which is not a member of
`TERMINAL_STATES` — and a worker whose accepted job ends this way appends a
log row with `accepted = true` and `final_state = "UNKNOWN"` (the last
conjunct evaluates `worker_run` on such a run). -/
theorem C10_unknown_final_state (obs : Nat → Option CrawlEntry)
    (pI mW k₀ : Nat) (hpI : 0 < pI)
    (hpre : ∀ j, j < k₀ → obsStop (obs j) = false ∧ j * pI ≤ mW)
    (hrun : (get_crawl_state (obs k₀)).2 = some false)
    (hst : (get_crawl_state (obs k₀)).1 = none ∨
      (get_crawl_state (obs k₀)).1 = some "") :
    (wait_until_finished obs pI mW).1 = "UNKNOWN"
    ∧ "UNKNOWN" ∉ TERMINAL_STATES
    ∧ (worker_run ⟨fun _ => (true, 200, "OK"), fun _ => some ⟨none, some false⟩, none⟩
         1 "job" ["u"] MAX_START_RETRY).1 =
        [⟨1, "job", 1, true, some 200, "OK", "UNKNOWN", 0⟩] := by
  refine ⟨?_, by decide, by decide⟩
  have hstop : obsStop (obs k₀) = true := by
    unfold obsStop
    rw [show stopCheck (get_crawl_state (obs k₀)).1 (get_crawl_state (obs k₀)).2 =
      ((get_crawl_state (obs k₀)).2 == some false ||
        (match (get_crawl_state (obs k₀)).1 with
         | some s => s != "" && TERMINAL_STATES.contains (pyUpper s)
         | none => false)) from rfl, hrun]
    simp
  rw [wait_stop_char obs pI mW k₀ hpI hpre hstop]
  cases hst with
  | inl h1 => simp [stateOrUnknown, h1]
  | inr h1 => simp [stateOrUnknown, h1]

/-- C10 witness: a job listed with `crawlerRunning = False` and no
`crawlerState` key from the first poll on; the monitor reports
`"UNKNOWN"`. -/
theorem C10_unknown_final_state_witness :
    (wait_until_finished (fun _ => some ⟨none, some false⟩) 5 3600).1 = "UNKNOWN" :=
  (C10_unknown_final_state (fun _ => some ⟨none, some false⟩) 5 3600 0 (by decide)
    (fun j hj => absurd hj (Nat.not_lt_zero j)) (by decide) (Or.inl (by decide))).1

end TorProxy
